import Mathlib

/-!
Shallow embedding of the document-intake pipeline of the Apptask repository
(files `Run.py`, `DatabaseOps.py`, `utils.py`), together with proofs of the
specification claims about it.

Modelling conventions:
* Python `datetime.date` values are modelled by `PyDate` (year/month/day as
  naturals) with the lexicographic order that Python's date comparison uses.
* The relational store (`international_documents` table) is modelled as a
  `List Row`; only the columns read back by the pipeline are kept.
* The MD5 hex digest used for `doc_hash` is an external library call; all the
  claims depend only on both call sites applying the same function to the same
  concatenated string, so it is kept as an explicit function parameter
  `md5hex : String → String`.
* Date strings in the canonical `YYYY-MM-DD` form (the only form the pipeline
  feeds into `datetime.strptime(date, '%Y-%m-%d')`) are modelled by their
  parsed `PyDate`; `None` becomes `Option.none`.
* Database faults are modelled explicitly where a claim is about them: the
  duplicate-check query carries a success flag, and `insert_metadata` outcomes
  are driven by an oracle `insertOk : Nat → Bool` indexed by the attempt
  number.  Reads performed once per source (`get_last_docket_id`,
  `get_latest_date`) are modelled as succeeding.
* Filesystem effects are reduced to the observable trace: the run state records
  which cached files have been removed with `os.remove`.
-/

namespace Apptask

/-- Calendar date as carried by Python `datetime.date`: year, month, day.
Python guarantees `1 <= year <= 9999`, `1 <= month <= 12`, `1 <= day <= 31`. -/
structure PyDate where
  year : Nat
  month : Nat
  day : Nat
deriving DecidableEq, Repr

/-- Python's `date <= date` comparison: lexicographic on (year, month, day). -/
def PyDate.le (a b : PyDate) : Prop :=
  a.year < b.year ∨ (a.year = b.year ∧
    (a.month < b.month ∨ (a.month = b.month ∧ a.day ≤ b.day)))

instance (a b : PyDate) : Decidable (PyDate.le a b) := by
  unfold PyDate.le; exact inferInstance

/-- The MySQL sentinel `'1900-01-01'` used by `get_latest_date`'s
`IFNULL(STR_TO_DATE(...), '1900-01-01')`. -/
def date1900 : PyDate := ⟨1900, 1, 1⟩

/-- Binary maximum of dates, as used to model SQL `GREATEST` and `MAX`. -/
def pmax (a b : PyDate) : PyDate := if PyDate.le a b then b else a

/-- A persisted row of the `international_documents` table, restricted to the
columns the pipeline reads back.  The stored `docket_id` string is modelled by
its numeric value (the code writes `str(next_docket_id)` and reads it back with
`CAST(docket_id AS UNSIGNED)`); the stored date strings are modelled by the
calendar date that `STR_TO_DATE(..., '%Y-%m-%d')` extracts, or `none` for SQL
`NULL`. -/
structure Row where
  program_id : String
  country : String
  docket_id : Int
  doc_hash : String
  title : String
  url : String
  modified_date : Option PyDate
  publish_date : Option PyDate
  effective_date : Option PyDate
deriving DecidableEq, Repr

/-- The content fingerprint computed in `DatabaseOps.py`:
`md5((title + url).encode()).hexdigest()`.  The digest itself is an external
library call, kept as the parameter `md5hex` applied to the concatenation. -/
def doc_hash (md5hex : String → String) (title url : String) : String :=
  md5hex (title ++ url)

/-- Python truthiness test `not x` for an optional string: `None` and the empty
string are falsy. -/
def pyFalsy : Option String → Bool
  | none => true
  | some s => s.isEmpty

/-- Embedding of `DatabaseOps.check_duplicate(title, url)`.  A falsy title or
url short-circuits to `True`; otherwise the table is queried for a row with the
same `doc_hash`.  `qok` models whether that query succeeds: on failure the
function returns `False`. -/
def check_duplicate (md5hex : String → String) (store : List Row) (qok : Bool)
    (title url : Option String) : Bool :=
  if pyFalsy title || pyFalsy url then true
  else if qok then
    store.any fun r => r.doc_hash == doc_hash md5hex (title.getD "") (url.getD "")
  else false

/-- Maximum of a list of integers, or `none` for the empty list; models SQL
`MAX` returning `NULL` over an empty set. -/
def maxDocket : List Int → Option Int
  | [] => none
  | x :: xs => some (xs.foldl max x)

/-- Scope filter of the SQL queries:
`WHERE program_id = :program_id AND country = :country`. -/
def inScope (pid country : String) (r : Row) : Bool :=
  r.program_id == pid && r.country == country

/-- Embedding of `DatabaseOps.get_last_docket_id(program_id, country)`:
`MAX(CAST(docket_id AS UNSIGNED))` over the scope, `None` when the scope has no
rows. -/
def get_last_docket_id (store : List Row) (pid country : String) : Option Int :=
  maxDocket ((store.filter (inScope pid country)).map Row.docket_id)

/-- The SQL expression `GREATEST(IFNULL(modified,'1900-01-01'),
IFNULL(effective,'1900-01-01'), IFNULL(publish,'1900-01-01'))` for one row. -/
def rowGreatest (r : Row) : PyDate :=
  pmax (pmax (r.modified_date.getD date1900) (r.effective_date.getD date1900))
    (r.publish_date.getD date1900)

/-- Fold computing the SQL `MAX` of `rowGreatest` over a list of rows. -/
def foldGreatest (a : PyDate) (rs : List Row) : PyDate :=
  rs.foldl (fun acc r => pmax acc (rowGreatest r)) a

/-- Embedding of `DatabaseOps.get_latest_date(program_id, country)`: the
maximum of `rowGreatest` over the scope, with SQL `NULL` (empty scope) and the
`1900-01-01` sentinel both stripped back to `None`. -/
def get_latest_date (store : List Row) (pid country : String) : Option PyDate :=
  match store.filter (inScope pid country) with
  | [] => none
  | r :: rs =>
    let m := foldGreatest (rowGreatest r) rs
    if m = date1900 then none else some m

/-! Date Normalizer (`utils.normalize_date`). -/

/-- The possible inputs of `utils.normalize_date`: Python `None` (or any other
falsy value), a `datetime`/`date` instance, a string, or a value of any other
type (which falls into the warning branch). -/
inductive DateInput
  | pyNone
  | dateVal (d : PyDate)
  | strVal (s : String)
  | otherVal
deriving DecidableEq, Repr

/-- Decimal digit character for `n % 10`. -/
def digitChar (n : Nat) : Char := Char.ofNat (48 + n % 10)

/-- The `strftime('%Y-%m-%d')` rendering of a date: four zero-padded year
digits, dash, two month digits, dash, two day digits.  Faithful for the values
`datetime.date` can hold (`year <= 9999`, `month <= 12`, `day <= 31`). -/
def formatYMD (d : PyDate) : String :=
  String.mk [digitChar (d.year / 1000), digitChar (d.year / 100),
    digitChar (d.year / 10), digitChar d.year, '-',
    digitChar (d.month / 10), digitChar d.month, '-',
    digitChar (d.day / 10), digitChar d.day]

/-- Shape check for the canonical output: exactly `DDDD-DD-DD` with decimal
digits `D`.  This is a specification-side predicate used to state claim C8. -/
def isYMDString (s : String) : Bool :=
  match s.data with
  | [y1, y2, y3, y4, h1, m1, m2, h2, d1, d2] =>
    y1.isDigit && y2.isDigit && y3.isDigit && y4.isDigit && h1 == '-' &&
      m1.isDigit && m2.isDigit && h2 == '-' && d1.isDigit && d2.isDigit
  | _ => false

/-- Embedding of `utils.normalize_date`.  A falsy input (`None`, empty string)
returns `None`; a `datetime`/`date` value is rendered with
`strftime('%Y-%m-%d')`; a string is handed to `dateutil.parser.parse` —
modelled by the oracle `parse`, with `none` standing for a raised parse error,
which the `except` branch converts to `None`; any other type logs a warning and
returns `None`. -/
def normalize_date (parse : String → Option PyDate) : DateInput → Option String
  | .pyNone => none
  | .dateVal d => some (formatYMD d)
  | .strVal s =>
    if s.isEmpty then none
    else
      match parse s with
      | some d => some (formatYMD d)
      | none => none
  | .otherVal => none

/-! URL handling fragment of `utils.process_pdf`. -/

/-- Python's `str.startswith(pre)`, evaluated on the underlying character
lists so that concrete instances reduce in the kernel. -/
def startswith (s pre : String) : Bool :=
  pre.data.isPrefixOf s.data

/-- An anchor element as consumed by `process_pdf`: `link.get('href')` and
`link.text`. -/
structure Link where
  href : Option String
  text : String
deriving DecidableEq, Repr

/-- Modelled stand-in for `urllib.parse.urljoin`: a reference that is itself an
absolute HTTP(S) URL is returned unchanged, anything else is appended to the
base URL's directory part.  Only used to instantiate theorems at concrete
inputs; the statements about `process_pdf_url` hold for every join function. -/
def urljoinModel (base rel : String) : String :=
  if startswith rel "http://" || startswith rel "https://" then rel
  else (base.dropRightWhile (fun c => c ≠ '/')) ++ rel

/-- The URL logic of `utils.process_pdf` (lines 106-117): reject when
`link.get('href')` is falsy (`if not url: return None, None`); otherwise
resolve with `urljoin(page_url, url)` only when the href does not start with
the literal `"http"`, and pass the result onward as the candidate's URL. -/
def process_pdf_url (urljoin : String → String → String) (link : Link)
    (pageUrl : String) : Option String :=
  match link.href with
  | none => none
  | some u =>
    if u.isEmpty then none
    else if startswith u "http" then some u
    else some (urljoin pageUrl u)

/-- Specification-side predicate for claim C9: the spec's "absolute HTTP(S)
URL". -/
def isAbsHttpUrl (s : String) : Bool :=
  startswith s "http://" || startswith s "https://"

/-! Pipeline Orchestrator (`Run.run_pipeline` inner loop). -/

/-- A scraped item as consumed by the `run_pipeline` loop: the metadata dict
produced by `utils.process_pdf` (plus scraper additions) and the cached file
path.  Date fields are the values of `metadata.get('posted_date')`,
`metadata.get('modified_date')` and `metadata.get('effective_date')`, each a
canonical `YYYY-MM-DD` string or `None`, modelled by `Option PyDate`. -/
structure Candidate where
  title : Option String
  url : Option String
  posted_date : Option PyDate
  modified_date : Option PyDate
  effective_date : Option PyDate
  filePath : Option String
deriving DecidableEq, Repr

/-- Outcome of the dedup/staleness decision for one candidate. -/
inductive Decision
  | alreadySeen
  | stale
  | new
deriving DecidableEq, Repr

/-- The `date_to_check` selection loop of `Run.py` (lines 113-121): the first
non-falsy value in the fixed order modified, posted, effective.  The values
here are already in canonical form (produced by `utils.normalize_date`), so
the `strptime` re-parse always succeeds. -/
def date_to_check (modified posted effective : Option PyDate) : Option PyDate :=
  match modified with
  | some d => some d
  | none =>
    match posted with
    | some d => some d
    | none => effective

/-- The staleness test of `Run.py` line 123:
`if latest_date and date_to_check and date_to_check <= latest_date`. -/
def isStale (latest dtc : Option PyDate) : Bool :=
  match latest, dtc with
  | some l, some d => decide (PyDate.le d l)
  | _, _ => false

/-- The decision sequence of the loop body: duplicate check first (against the
current store state), then the staleness test, otherwise the candidate is new.
The in-run duplicate queries are modelled as succeeding. -/
def decide_candidate (md5hex : String → String) (store : List Row)
    (latest : Option PyDate) (c : Candidate) : Decision :=
  if check_duplicate md5hex store true c.title c.url then .alreadySeen
  else if isStale latest
      (date_to_check c.modified_date c.posted_date c.effective_date) then .stale
  else .new

/-- Mutable state of one source's processing in `run_pipeline`: the store, the
in-memory `next_docket_id` counter, the trace of cached files removed with
`os.remove`, the number of insert attempts made (used to index the insert
oracle), and the ghost list of docket ids of the successful inserts in order. -/
structure RunState where
  store : List Row
  nextDocketId : Int
  deletedFiles : List String
  attempts : Nat
  inserted : List Int
deriving DecidableEq, Repr

/-- Record the `os.remove(file_path)` performed on the skip and success paths
(`if file_path and os.path.exists(file_path)`); a candidate without a file path
removes nothing. -/
def recordDelete (files : List String) : Option String → List String
  | none => files
  | some p => files ++ [p]

/-- The row that lands in the table when `run_pipeline`'s `insert_data` for a
candidate is passed through `DatabaseOps.insert_metadata`: the hash is
recomputed from title and url (`None` defaulted to `''`), `modified_date` is
overwritten with `datetime.now()` (here: the run timestamp `now`),
`publish_date` is overwritten with the absent `posted_date` key and therefore
stored as `NULL`, and `effective_date` is deleted from the payload and never
inserted. -/
def insert_metadata_row (md5hex : String → String) (pid country : String)
    (now : PyDate) (nextId : Int) (c : Candidate) : Row :=
  { program_id := pid
    country := country
    docket_id := nextId
    doc_hash := doc_hash md5hex (c.title.getD "") (c.url.getD "")
    title := c.title.getD ""
    url := c.url.getD ""
    modified_date := some now
    publish_date := none
    effective_date := none }

/-- One iteration of the `run_pipeline` candidate loop: duplicates and stale
candidates are skipped and their cached file removed; a new candidate is
assigned `next_docket_id` and inserted — on success the counter advances and
the cached file is removed, on failure (insert rejected by the store, per the
oracle) nothing else happens and the loop continues. -/
def step (md5hex : String → String) (insertOk : Nat → Bool)
    (pid country : String) (now : PyDate) (latest : Option PyDate)
    (s : RunState) (c : Candidate) : RunState :=
  match decide_candidate md5hex s.store latest c with
  | .alreadySeen => { s with deletedFiles := recordDelete s.deletedFiles c.filePath }
  | .stale => { s with deletedFiles := recordDelete s.deletedFiles c.filePath }
  | .new =>
    if insertOk s.attempts then
      { store := s.store ++ [insert_metadata_row md5hex pid country now s.nextDocketId c]
        nextDocketId := s.nextDocketId + 1
        deletedFiles := recordDelete s.deletedFiles c.filePath
        attempts := s.attempts + 1
        inserted := s.inserted ++ [s.nextDocketId] }
    else
      { s with attempts := s.attempts + 1 }

/-- The seed of the allocator (`Run.py` line 69):
`get_last_docket_id(...) or (starting_docket_id - 1)`.  Python's `or` also
replaces a stored maximum of `0` (falsy) by the default. -/
def seedLastDocket (store : List Row) (pid country : String)
    (startingDocketId : Int) : Int :=
  match get_last_docket_id store pid country with
  | none => startingDocketId - 1
  | some m => if m = 0 then startingDocketId - 1 else m

/-- Processing of one source in `run_pipeline`: read the allocator seed and the
high-water date from the store once, then fold the candidate loop over the
scraped list. -/
def runSource (md5hex : String → String) (insertOk : Nat → Bool)
    (pid country : String) (startingDocketId : Int) (now : PyDate)
    (store0 : List Row) (cands : List Candidate) : RunState :=
  List.foldl
    (step md5hex insertOk pid country now (get_latest_date store0 pid country))
    { store := store0
      nextDocketId := seedLastDocket store0 pid country startingDocketId + 1
      deletedFiles := []
      attempts := 0
      inserted := [] }
    cands

/-- Consecutive integers `n, n+1, ..., n+k-1`; the shape of the docket ids a
run allocates. -/
def consecFrom : Int → Nat → List Int
  | _, 0 => []
  | n, Nat.succ k => n :: consecFrom (n + 1) k

/-! Order lemmas for `PyDate`. -/

theorem PyDate.le_refl (a : PyDate) : PyDate.le a a := by
  unfold PyDate.le; omega

theorem PyDate.le_trans {a b c : PyDate} (h1 : PyDate.le a b) (h2 : PyDate.le b c) :
    PyDate.le a c := by
  unfold PyDate.le at h1 h2 ⊢; omega

theorem PyDate.le_total (a b : PyDate) : PyDate.le a b ∨ PyDate.le b a := by
  unfold PyDate.le; omega

theorem PyDate.not_le {a b : PyDate} (h : ¬ PyDate.le a b) : PyDate.le b a := by
  rcases PyDate.le_total a b with h2 | h2
  · exact absurd h2 h
  · exact h2

theorem le_pmax_left (a b : PyDate) : PyDate.le a (pmax a b) := by
  unfold pmax
  split
  · assumption
  · exact PyDate.le_refl a

theorem le_pmax_right (a b : PyDate) : PyDate.le b (pmax a b) := by
  unfold pmax
  split
  · exact PyDate.le_refl b
  · exact PyDate.not_le (by assumption)

theorem le_foldGreatest (a : PyDate) (rs : List Row) :
    PyDate.le a (foldGreatest a rs) := by
  induction rs generalizing a with
  | nil => exact PyDate.le_refl a
  | cons r rs ih =>
    simp only [foldGreatest, List.foldl_cons]
    exact PyDate.le_trans (le_pmax_left a (rowGreatest r)) (ih (pmax a (rowGreatest r)))

theorem foldGreatest_append (a : PyDate) (xs ys : List Row) :
    foldGreatest a (xs ++ ys) = foldGreatest (foldGreatest a xs) ys := by
  simp [foldGreatest, List.foldl_append]

theorem rowGreatest_le_foldGreatest (a : PyDate) (rs : List Row) {r : Row}
    (h : r ∈ rs) : PyDate.le (rowGreatest r) (foldGreatest a rs) := by
  induction rs generalizing a with
  | nil => cases h
  | cons x xs ih =>
    simp only [foldGreatest, List.foldl_cons]
    rcases List.mem_cons.mp h with h2 | h2
    · subst h2
      exact PyDate.le_trans (le_pmax_right a (rowGreatest r))
        (le_foldGreatest (pmax a (rowGreatest r)) xs)
    · exact ih (pmax a (rowGreatest x)) h2

/-! Lemmas about integer maxima (`maxDocket`). -/

theorem le_foldl_max (x : Int) (xs : List Int) : x ≤ xs.foldl max x := by
  induction xs generalizing x with
  | nil => exact le_refl x
  | cons a as ih =>
    simp only [List.foldl_cons]
    exact le_trans (le_max_left x a) (ih (max x a))

theorem mem_le_foldl_max {y : Int} (x : Int) (xs : List Int) (h : y ∈ xs) :
    y ≤ xs.foldl max x := by
  induction xs generalizing x with
  | nil => cases h
  | cons a as ih =>
    simp only [List.foldl_cons]
    rcases List.mem_cons.mp h with h2 | h2
    · subst h2
      exact le_trans (le_max_right x y) (le_foldl_max (max x y) as)
    · exact ih (max x a) h2

theorem maxDocket_mem_le {l : List Int} {m y : Int} (hm : maxDocket l = some m)
    (hy : y ∈ l) : y ≤ m := by
  cases l with
  | nil => cases hy
  | cons x xs =>
    simp only [maxDocket, Option.some.injEq] at hm
    subst hm
    rcases List.mem_cons.mp hy with h2 | h2
    · rw [h2]
      exact le_foldl_max x xs
    · exact mem_le_foldl_max x xs h2

/-! Lemmas about `consecFrom`. -/

theorem consecFrom_mem {n : Int} {k : Nat} {i : Int} (h : i ∈ consecFrom n k) :
    n ≤ i ∧ i < n + k := by
  induction k generalizing n with
  | zero => cases h
  | succ k ih =>
    simp only [consecFrom] at h
    rcases List.mem_cons.mp h with h2 | h2
    · subst h2; omega
    · have := ih h2
      omega

theorem consecFrom_pairwise (n : Int) (k : Nat) :
    List.Pairwise (· < ·) (consecFrom n k) := by
  induction k generalizing n with
  | zero => exact List.Pairwise.nil
  | succ k ih =>
    simp only [consecFrom]
    refine List.Pairwise.cons ?_ (ih (n + 1))
    intro i hi
    have := consecFrom_mem hi
    omega

/-! Inversion lemmas for the candidate decision. -/

theorem decide_eq_alreadySeen {md5hex : String → String} {store : List Row}
    {latest : Option PyDate} {c : Candidate}
    (h : decide_candidate md5hex store latest c = .alreadySeen) :
    check_duplicate md5hex store true c.title c.url = true := by
  cases h1 : check_duplicate md5hex store true c.title c.url
  · cases h2 : isStale latest (date_to_check c.modified_date c.posted_date c.effective_date) <;>
      simp [decide_candidate, h1, h2] at h
  · rfl

theorem decide_eq_stale {md5hex : String → String} {store : List Row}
    {latest : Option PyDate} {c : Candidate}
    (h : decide_candidate md5hex store latest c = .stale) :
    check_duplicate md5hex store true c.title c.url = false
      ∧ isStale latest (date_to_check c.modified_date c.posted_date c.effective_date) = true := by
  cases h1 : check_duplicate md5hex store true c.title c.url
  · cases h2 : isStale latest (date_to_check c.modified_date c.posted_date c.effective_date)
    · simp [decide_candidate, h1, h2] at h
    · exact ⟨rfl, rfl⟩
  · simp [decide_candidate, h1] at h

theorem decide_eq_new {md5hex : String → String} {store : List Row}
    {latest : Option PyDate} {c : Candidate}
    (h : decide_candidate md5hex store latest c = .new) :
    check_duplicate md5hex store true c.title c.url = false
      ∧ isStale latest (date_to_check c.modified_date c.posted_date c.effective_date) = false := by
  cases h1 : check_duplicate md5hex store true c.title c.url
  · cases h2 : isStale latest (date_to_check c.modified_date c.posted_date c.effective_date)
    · exact ⟨rfl, rfl⟩
    · simp [decide_candidate, h1, h2] at h
  · simp [decide_candidate, h1] at h

/-! Monotonicity of the duplicate check under store growth. -/

theorem check_duplicate_mono (md5hex : String → String) (S E : List Row)
    (t u : Option String) (h : check_duplicate md5hex S true t u = true) :
    check_duplicate md5hex (S ++ E) true t u = true := by
  cases hft : pyFalsy t <;> cases hfu : pyFalsy u <;>
    simp_all [check_duplicate, List.any_append]

theorem check_duplicate_of_mem (md5hex : String → String) (S : List Row)
    (t u : Option String) (r : Row) (hr : r ∈ S)
    (hh : r.doc_hash = doc_hash md5hex (t.getD "") (u.getD "")) :
    check_duplicate md5hex S true t u = true := by
  cases hft : pyFalsy t <;> cases hfu : pyFalsy u <;>
    simp_all [check_duplicate]
  exact ⟨r, hr, hh⟩

/-! Rewriting lemmas for the four outcomes of one loop iteration. -/

theorem step_seen {md5hex : String → String} {insertOk : Nat → Bool}
    {pid country : String} {now : PyDate} {latest : Option PyDate}
    {s : RunState} {c : Candidate}
    (hd : decide_candidate md5hex s.store latest c = .alreadySeen) :
    step md5hex insertOk pid country now latest s c
      = { s with deletedFiles := recordDelete s.deletedFiles c.filePath } := by
  simp [step, hd]

theorem step_stale {md5hex : String → String} {insertOk : Nat → Bool}
    {pid country : String} {now : PyDate} {latest : Option PyDate}
    {s : RunState} {c : Candidate}
    (hd : decide_candidate md5hex s.store latest c = .stale) :
    step md5hex insertOk pid country now latest s c
      = { s with deletedFiles := recordDelete s.deletedFiles c.filePath } := by
  simp [step, hd]

theorem step_new_ok {md5hex : String → String} {insertOk : Nat → Bool}
    {pid country : String} {now : PyDate} {latest : Option PyDate}
    {s : RunState} {c : Candidate}
    (hd : decide_candidate md5hex s.store latest c = .new)
    (ho : insertOk s.attempts = true) :
    step md5hex insertOk pid country now latest s c
      = { store := s.store ++ [insert_metadata_row md5hex pid country now s.nextDocketId c]
          nextDocketId := s.nextDocketId + 1
          deletedFiles := recordDelete s.deletedFiles c.filePath
          attempts := s.attempts + 1
          inserted := s.inserted ++ [s.nextDocketId] } := by
  simp [step, hd, ho]

theorem step_new_fail {md5hex : String → String} {insertOk : Nat → Bool}
    {pid country : String} {now : PyDate} {latest : Option PyDate}
    {s : RunState} {c : Candidate}
    (hd : decide_candidate md5hex s.store latest c = .new)
    (ho : insertOk s.attempts = false) :
    step md5hex insertOk pid country now latest s c
      = { s with attempts := s.attempts + 1 } := by
  simp [step, hd, ho]

/-! Invariants of the candidate-loop fold. -/

theorem foldl_step_alloc (md5hex : String → String) (insertOk : Nat → Bool)
    (pid country : String) (now : PyDate) (latest : Option PyDate) :
    ∀ (cs : List Candidate) (s : RunState),
      ∃ k : Nat,
        (List.foldl (step md5hex insertOk pid country now latest) s cs).inserted
            = s.inserted ++ consecFrom s.nextDocketId k
        ∧ (List.foldl (step md5hex insertOk pid country now latest) s cs).nextDocketId
            = s.nextDocketId + k := by
  intro cs
  induction cs with
  | nil =>
    intro s
    exact ⟨0, by simp [consecFrom], by simp⟩
  | cons c cs ih =>
    intro s
    rw [List.foldl_cons]
    cases hd : decide_candidate md5hex s.store latest c with
    | alreadySeen =>
      rw [step_seen hd]
      obtain ⟨k, h1, h2⟩ :=
        ih { s with deletedFiles := recordDelete s.deletedFiles c.filePath }
      exact ⟨k, h1, h2⟩
    | stale =>
      rw [step_stale hd]
      obtain ⟨k, h1, h2⟩ :=
        ih { s with deletedFiles := recordDelete s.deletedFiles c.filePath }
      exact ⟨k, h1, h2⟩
    | new =>
      cases ho : insertOk s.attempts with
      | false =>
        rw [step_new_fail hd ho]
        obtain ⟨k, h1, h2⟩ := ih { s with attempts := s.attempts + 1 }
        exact ⟨k, h1, h2⟩
      | true =>
        rw [step_new_ok hd ho]
        obtain ⟨k, h1, h2⟩ :=
          ih { store := s.store ++ [insert_metadata_row md5hex pid country now s.nextDocketId c]
               nextDocketId := s.nextDocketId + 1
               deletedFiles := recordDelete s.deletedFiles c.filePath
               attempts := s.attempts + 1
               inserted := s.inserted ++ [s.nextDocketId] }
        refine ⟨k + 1, ?_, ?_⟩
        · rw [h1]
          simp only [consecFrom, List.append_assoc, List.singleton_append]
        · rw [h2]
          push_cast
          ring

theorem foldl_step_store (md5hex : String → String) (insertOk : Nat → Bool)
    (pid country : String) (now : PyDate) (latest : Option PyDate) :
    ∀ (cs : List Candidate) (s : RunState),
      ∃ ext : List Row,
        (List.foldl (step md5hex insertOk pid country now latest) s cs).store
            = s.store ++ ext
        ∧ ∀ r ∈ ext, r.program_id = pid ∧ r.country = country
            ∧ r.modified_date = some now ∧ r.publish_date = none
            ∧ r.effective_date = none := by
  intro cs
  induction cs with
  | nil =>
    intro s
    exact ⟨[], by simp, by simp⟩
  | cons c cs ih =>
    intro s
    rw [List.foldl_cons]
    cases hd : decide_candidate md5hex s.store latest c with
    | alreadySeen =>
      rw [step_seen hd]
      obtain ⟨ext, h1, h2⟩ :=
        ih { s with deletedFiles := recordDelete s.deletedFiles c.filePath }
      exact ⟨ext, h1, h2⟩
    | stale =>
      rw [step_stale hd]
      obtain ⟨ext, h1, h2⟩ :=
        ih { s with deletedFiles := recordDelete s.deletedFiles c.filePath }
      exact ⟨ext, h1, h2⟩
    | new =>
      cases ho : insertOk s.attempts with
      | false =>
        rw [step_new_fail hd ho]
        obtain ⟨ext, h1, h2⟩ := ih { s with attempts := s.attempts + 1 }
        exact ⟨ext, h1, h2⟩
      | true =>
        rw [step_new_ok hd ho]
        obtain ⟨ext, h1, h2⟩ :=
          ih { store := s.store ++ [insert_metadata_row md5hex pid country now s.nextDocketId c]
               nextDocketId := s.nextDocketId + 1
               deletedFiles := recordDelete s.deletedFiles c.filePath
               attempts := s.attempts + 1
               inserted := s.inserted ++ [s.nextDocketId] }
        refine ⟨insert_metadata_row md5hex pid country now s.nextDocketId c :: ext, ?_, ?_⟩
        · rw [h1]
          simp [List.append_assoc]
        · intro r hr
          rcases List.mem_cons.mp hr with h3 | h3
          · subst h3
            exact ⟨rfl, rfl, rfl, rfl, rfl⟩
          · exact h2 r h3

theorem foldl_step_classify (md5hex : String → String) (pid country : String)
    (now : PyDate) (latest : Option PyDate) :
    ∀ (cs : List Candidate) (s : RunState), ∀ c ∈ cs,
      check_duplicate md5hex
          (List.foldl (step md5hex (fun _ => true) pid country now latest) s cs).store
          true c.title c.url = true
        ∨ isStale latest (date_to_check c.modified_date c.posted_date c.effective_date)
            = true := by
  intro cs
  induction cs with
  | nil =>
    intro s c hc
    cases hc
  | cons c0 cs ih =>
    intro s c hc
    rw [List.foldl_cons]
    rcases List.mem_cons.mp hc with h3 | h3
    · subst h3
      cases hd : decide_candidate md5hex s.store latest c with
      | alreadySeen =>
        left
        rw [step_seen hd]
        obtain ⟨ext, h1, _⟩ := foldl_step_store md5hex (fun _ => true) pid country now latest
          cs { s with deletedFiles := recordDelete s.deletedFiles c.filePath }
        rw [h1]
        exact check_duplicate_mono md5hex s.store ext c.title c.url (decide_eq_alreadySeen hd)
      | stale =>
        right
        exact (decide_eq_stale hd).2
      | new =>
        left
        rw [step_new_ok hd rfl]
        obtain ⟨ext, h1, _⟩ := foldl_step_store md5hex (fun _ => true) pid country now latest
          cs { store := s.store ++ [insert_metadata_row md5hex pid country now s.nextDocketId c]
               nextDocketId := s.nextDocketId + 1
               deletedFiles := recordDelete s.deletedFiles c.filePath
               attempts := s.attempts + 1
               inserted := s.inserted ++ [s.nextDocketId] }
        rw [h1]
        refine check_duplicate_of_mem md5hex _ c.title c.url
          (insert_metadata_row md5hex pid country now s.nextDocketId c) ?_ rfl
        exact List.mem_append_left _ (List.mem_append_right _ (List.mem_singleton.mpr rfl))
    · exact ih (step md5hex (fun _ => true) pid country now latest s c0) c h3

/-! High-water date: inversion and growth under appended scoped rows. -/

theorem get_latest_date_eq_some {S : List Row} {pid country : String} {l : PyDate}
    (h : get_latest_date S pid country = some l) :
    ∃ r rs, S.filter (inScope pid country) = r :: rs
      ∧ l = foldGreatest (rowGreatest r) rs ∧ l ≠ date1900 := by
  unfold get_latest_date at h
  cases hf : S.filter (inScope pid country) with
  | nil =>
    rw [hf] at h
    cases h
  | cons r rs =>
    rw [hf] at h
    simp only at h
    by_cases hm : foldGreatest (rowGreatest r) rs = date1900
    · rw [if_pos hm] at h
      cases h
    · rw [if_neg hm] at h
      have h2 := Option.some.inj h
      exact ⟨r, rs, rfl, h2.symm, h2 ▸ hm⟩

theorem get_latest_date_grow {S E : List Row} {pid country : String}
    {now l : PyDate}
    (hrows : ∀ r ∈ E, r.program_id = pid ∧ r.country = country
        ∧ r.modified_date = some now ∧ r.publish_date = none
        ∧ r.effective_date = none)
    (hnow : ¬ PyDate.le now date1900)
    (hS : get_latest_date S pid country = some l) :
    ∃ l2, get_latest_date (S ++ E) pid country = some l2 ∧ PyDate.le l l2 := by
  obtain ⟨r, rs, hf, hl, hne⟩ := get_latest_date_eq_some hS
  have hEfilter : E.filter (inScope pid country) = E := by
    rw [List.filter_eq_self]
    intro x hx
    obtain ⟨h1, h2, _⟩ := hrows x hx
    simp [inScope, h1, h2]
  have hfilter : (S ++ E).filter (inScope pid country) = r :: (rs ++ E) := by
    rw [List.filter_append, hf, hEfilter]
    rfl
  have hmono : PyDate.le l (foldGreatest (rowGreatest r) (rs ++ E)) := by
    rw [foldGreatest_append, ← hl]
    exact le_foldGreatest l E
  have hne2 : foldGreatest (rowGreatest r) (rs ++ E) ≠ date1900 := by
    cases hE : E with
    | nil =>
      rw [List.append_nil, ← hl]
      exact hne
    | cons e es =>
      intro hcontra
      have hmem : e ∈ rs ++ e :: es :=
        List.mem_append_right rs (List.mem_cons_self e es)
      have h4 := rowGreatest_le_foldGreatest (rowGreatest r) (rs ++ e :: es) hmem
      have h5 : PyDate.le now (rowGreatest e) := by
        obtain ⟨_, _, hm, _, _⟩ := hrows e (by rw [hE]; exact List.mem_cons_self e es)
        unfold rowGreatest
        rw [hm]
        simp only [Option.getD_some]
        exact PyDate.le_trans (le_pmax_left now _) (le_pmax_left _ _)
      rw [hcontra] at h4
      exact hnow (PyDate.le_trans h5 h4)
  refine ⟨foldGreatest (rowGreatest r) (rs ++ E), ?_, hmono⟩
  unfold get_latest_date
  rw [hfilter]
  simp only
  rw [if_neg hne2]

/-! A run in which no candidate reaches the persist path changes nothing but
the deletion trace. -/

theorem foldl_step_no_new (md5hex : String → String) (insertOk : Nat → Bool)
    (pid country : String) (now : PyDate) (latest : Option PyDate) :
    ∀ (cs : List Candidate) (s : RunState),
      (∀ c ∈ cs, decide_candidate md5hex s.store latest c ≠ .new) →
      (List.foldl (step md5hex insertOk pid country now latest) s cs).store = s.store
        ∧ (List.foldl (step md5hex insertOk pid country now latest) s cs).nextDocketId
            = s.nextDocketId
        ∧ (List.foldl (step md5hex insertOk pid country now latest) s cs).inserted
            = s.inserted := by
  intro cs
  induction cs with
  | nil =>
    intro s _
    exact ⟨rfl, rfl, rfl⟩
  | cons c cs ih =>
    intro s hno
    rw [List.foldl_cons]
    cases hd : decide_candidate md5hex s.store latest c with
    | alreadySeen =>
      rw [step_seen hd]
      exact ih { s with deletedFiles := recordDelete s.deletedFiles c.filePath }
        (fun c2 hc2 => hno c2 (List.mem_cons_of_mem c hc2))
    | stale =>
      rw [step_stale hd]
      exact ih { s with deletedFiles := recordDelete s.deletedFiles c.filePath }
        (fun c2 hc2 => hno c2 (List.mem_cons_of_mem c hc2))
    | new =>
      exact absurd hd (hno c (List.mem_cons_self c cs))

theorem isStale_eq_true {latest dtc : Option PyDate} (h : isStale latest dtc = true) :
    ∃ l d, latest = some l ∧ dtc = some d ∧ PyDate.le d l := by
  cases latest with
  | none => simp [isStale] at h
  | some l =>
    cases dtc with
    | none => simp [isStale] at h
    | some d =>
      refine ⟨l, d, rfl, rfl, ?_⟩
      simpa [isStale] using h

/-! The specification claims. -/

/-- C2: for a candidate that passes the duplicate check, whose selected
comparison date is non-null, and whose scope has a non-null high-water date,
the decision is STALE exactly when the selected date is less than or equal to
the high-water date — the boundary is inclusive, and a strictly later date
yields NEW. -/
theorem claim_C2_stale_boundary_inclusive (md5hex : String → String)
    (store : List Row) (latest : Option PyDate) (c : Candidate) (l d : PyDate)
    (hl : latest = some l)
    (hd : date_to_check c.modified_date c.posted_date c.effective_date = some d)
    (hdup : check_duplicate md5hex store true c.title c.url = false) :
    (decide_candidate md5hex store latest c = .stale ↔ PyDate.le d l)
      ∧ (¬ PyDate.le d l → decide_candidate md5hex store latest c = .new) := by
  subst hl
  constructor
  · constructor
    · intro h
      have h2 := (decide_eq_stale h).2
      rw [hd] at h2
      simpa [isStale] using h2
    · intro h
      simp [decide_candidate, hdup, hd, isStale, h]
  · intro h
    simp [decide_candidate, hdup, hd, isStale, h]

/-- Witness for C2, the spec scenario: with high-water date 2024-06-01, a
candidate modified 2024-06-01 is STALE and one modified 2024-06-02 is NEW. -/
theorem claim_C2_witness :
    decide_candidate (fun s => s) [] (some ⟨2024, 6, 1⟩)
        { title := some "A", url := some "http://x/a.pdf", posted_date := none,
          modified_date := some ⟨2024, 6, 1⟩, effective_date := none,
          filePath := none } = .stale
      ∧ decide_candidate (fun s => s) [] (some ⟨2024, 6, 1⟩)
        { title := some "A", url := some "http://x/a.pdf", posted_date := none,
          modified_date := some ⟨2024, 6, 2⟩, effective_date := none,
          filePath := none } = .new := by
  constructor
  · exact (claim_C2_stale_boundary_inclusive (fun s => s) [] (some ⟨2024, 6, 1⟩)
      { title := some "A", url := some "http://x/a.pdf", posted_date := none,
        modified_date := some ⟨2024, 6, 1⟩, effective_date := none,
        filePath := none }
      ⟨2024, 6, 1⟩ ⟨2024, 6, 1⟩ rfl rfl (by decide)).1.mpr (by decide)
  · exact (claim_C2_stale_boundary_inclusive (fun s => s) [] (some ⟨2024, 6, 1⟩)
      { title := some "A", url := some "http://x/a.pdf", posted_date := none,
        modified_date := some ⟨2024, 6, 2⟩, effective_date := none,
        filePath := none }
      ⟨2024, 6, 1⟩ ⟨2024, 6, 2⟩ rfl rfl (by decide)).2 (by decide)

/-- C3: for a candidate that passes the duplicate check, the staleness decision
is driven by `date_to_check`, and that value is the first non-null date in the
fixed priority order modified, then posted, then effective — first-present
wins, not a maximum or minimum over the three fields. -/
theorem claim_C3_date_priority (md5hex : String → String) (store : List Row)
    (latest : Option PyDate) (c : Candidate)
    (hdup : check_duplicate md5hex store true c.title c.url = false) :
    (decide_candidate md5hex store latest c = .stale
        ↔ isStale latest (date_to_check c.modified_date c.posted_date c.effective_date)
            = true)
      ∧ (∀ d, c.modified_date = some d →
          date_to_check c.modified_date c.posted_date c.effective_date = some d)
      ∧ (c.modified_date = none → ∀ d, c.posted_date = some d →
          date_to_check c.modified_date c.posted_date c.effective_date = some d)
      ∧ (c.modified_date = none → c.posted_date = none →
          date_to_check c.modified_date c.posted_date c.effective_date
            = c.effective_date) := by
  refine ⟨⟨fun h => (decide_eq_stale h).2, fun h => ?_⟩, fun d hm => ?_,
    fun hm d hp => ?_, fun hm hp => ?_⟩
  · simp [decide_candidate, hdup, h]
  · rw [hm]
    rfl
  · rw [hm, hp]
    rfl
  · rw [hm, hp]
    rfl

/-- Witness for C3: when all three dates are present the modified date wins. -/
theorem claim_C3_witness :
    date_to_check (some ⟨2024, 5, 1⟩) (some ⟨2024, 6, 1⟩) (some ⟨2024, 7, 1⟩)
      = some ⟨2024, 5, 1⟩ :=
  (claim_C3_date_priority (fun s => s) [] none
    { title := some "A", url := some "http://x/a.pdf",
      posted_date := some ⟨2024, 6, 1⟩, modified_date := some ⟨2024, 5, 1⟩,
      effective_date := some ⟨2024, 7, 1⟩, filePath := none }
    (by decide)).2.1 ⟨2024, 5, 1⟩ rfl

/-- C4: a candidate with all three dates null that passes the duplicate check
is classified NEW, never STALE, and a scope with no rows has a null high-water
date, under which no candidate is ever classified STALE. -/
theorem claim_C4_null_date_safety (md5hex : String → String) (store : List Row)
    (pid country : String) (latest : Option PyDate) (c : Candidate) :
    (c.modified_date = none → c.posted_date = none → c.effective_date = none →
        check_duplicate md5hex store true c.title c.url = false →
        decide_candidate md5hex store latest c = .new)
      ∧ (latest = none → decide_candidate md5hex store latest c ≠ .stale)
      ∧ (store.filter (inScope pid country) = [] →
          get_latest_date store pid country = none) := by
  refine ⟨fun hm hp he hdup => ?_, fun hl => ?_, fun hf => ?_⟩
  · cases latest <;>
      simp [decide_candidate, hdup, hm, hp, he, date_to_check, isStale]
  · subst hl
    cases hcd : check_duplicate md5hex store true c.title c.url <;>
      simp [decide_candidate, hcd, isStale]
  · unfold get_latest_date
    rw [hf]

/-- Witness for C4: with an empty store and a non-null high-water date, a
date-free candidate is NEW, and the empty scope has a null high-water date. -/
theorem claim_C4_witness :
    decide_candidate (fun s => s) [] (some ⟨2024, 1, 1⟩)
        { title := some "A", url := some "http://x/a.pdf", posted_date := none,
          modified_date := none, effective_date := none, filePath := none } = .new
      ∧ get_latest_date [] "1" "Nigeria" = none := by
  constructor
  · exact (claim_C4_null_date_safety (fun s => s) [] "1" "Nigeria"
      (some ⟨2024, 1, 1⟩) _).1 rfl rfl rfl (by decide)
  · exact (claim_C4_null_date_safety (fun s => s) [] "1" "Nigeria" none
      { title := none, url := none, posted_date := none, modified_date := none,
        effective_date := none, filePath := none }).2.2 rfl

/-- C5: the content fingerprint is a pure function of (title, url): the row
stored by an insert carries exactly `md5hex(title ++ url)`, two inserts built
from candidates with the same title and url carry the same hash whatever their
other fields, and the duplicate check recomputes the same value and therefore
finds a just-inserted row. -/
theorem claim_C5_fingerprint_deterministic (md5hex : String → String)
    (pid1 pid2 country1 country2 : String) (now1 now2 : PyDate) (id1 id2 : Int)
    (c1 c2 : Candidate) (store : List Row) (t u : String)
    (ht1 : c1.title = some t) (hu1 : c1.url = some u)
    (ht2 : c2.title = some t) (hu2 : c2.url = some u) :
    (insert_metadata_row md5hex pid1 country1 now1 id1 c1).doc_hash
        = doc_hash md5hex t u
      ∧ (insert_metadata_row md5hex pid2 country2 now2 id2 c2).doc_hash
          = (insert_metadata_row md5hex pid1 country1 now1 id1 c1).doc_hash
      ∧ (t.isEmpty = false → u.isEmpty = false →
          check_duplicate md5hex
            (store ++ [insert_metadata_row md5hex pid1 country1 now1 id1 c1])
            true (some t) (some u) = true) := by
  refine ⟨?_, ?_, fun hte hue => ?_⟩
  · simp [insert_metadata_row, ht1, hu1]
  · simp [insert_metadata_row, ht1, hu1, ht2, hu2]
  · refine check_duplicate_of_mem md5hex _ (some t) (some u)
      (insert_metadata_row md5hex pid1 country1 now1 id1 c1)
      (List.mem_append_right store (List.mem_singleton.mpr rfl)) ?_
    simp [insert_metadata_row, ht1, hu1]

/-- Witness for C5: a just-inserted (title, url) pair is found by the duplicate
check computed from the same pair. -/
theorem claim_C5_witness :
    check_duplicate (fun s => s)
        ([] ++ [insert_metadata_row (fun s => s) "1" "Nigeria" ⟨2024, 1, 1⟩ 1001
          { title := some "Guideline A", url := some "https://x/a.pdf",
            posted_date := none, modified_date := none, effective_date := none,
            filePath := none }])
        true (some "Guideline A") (some "https://x/a.pdf") = true :=
  (claim_C5_fingerprint_deterministic (fun s => s) "1" "1" "Nigeria" "Nigeria"
    ⟨2024, 1, 1⟩ ⟨2024, 1, 1⟩ 1001 1001
    { title := some "Guideline A", url := some "https://x/a.pdf",
      posted_date := none, modified_date := none, effective_date := none,
      filePath := none }
    { title := some "Guideline A", url := some "https://x/a.pdf",
      posted_date := none, modified_date := none, effective_date := none,
      filePath := none }
    [] "Guideline A" "https://x/a.pdf" rfl rfl rfl rfl).2.2 (by decide) (by decide)

/-- C7: when a candidate reaches the persist path and the insert is rejected,
the in-memory docket counter is not advanced (the next successful candidate
receives the identifier the failed one would have received), the candidate's
cached file is not deleted, the store and the list of persisted identifiers are
unchanged, and the loop simply continues with the next candidate. -/
theorem claim_C7_insert_failure_recovery (md5hex : String → String)
    (insertOk : Nat → Bool) (pid country : String) (now : PyDate)
    (latest : Option PyDate) (s : RunState) (c : Candidate)
    (hnew : decide_candidate md5hex s.store latest c = .new)
    (hfail : insertOk s.attempts = false) :
    (step md5hex insertOk pid country now latest s c).nextDocketId = s.nextDocketId
      ∧ (step md5hex insertOk pid country now latest s c).deletedFiles
          = s.deletedFiles
      ∧ (step md5hex insertOk pid country now latest s c).store = s.store
      ∧ (step md5hex insertOk pid country now latest s c).inserted = s.inserted
      ∧ ∀ rest, List.foldl (step md5hex insertOk pid country now latest) s (c :: rest)
          = List.foldl (step md5hex insertOk pid country now latest)
              (step md5hex insertOk pid country now latest s c) rest := by
  refine ⟨?_, ?_, ?_, ?_, fun rest => rfl⟩ <;> rw [step_new_fail hnew hfail]

/-- Witness for C7: a concrete new candidate whose insert fails leaves the
counter, file trace, store and persisted list unchanged. -/
theorem claim_C7_witness :
    (step (fun s => s) (fun _ => false) "1" "Nigeria" ⟨2024, 1, 1⟩ none
        { store := [], nextDocketId := 1001, deletedFiles := [], attempts := 0,
          inserted := [] }
        { title := some "A", url := some "http://x/a.pdf", posted_date := none,
          modified_date := none, effective_date := none,
          filePath := some "a.pdf" }).nextDocketId = 1001
      ∧ (step (fun s => s) (fun _ => false) "1" "Nigeria" ⟨2024, 1, 1⟩ none
          { store := [], nextDocketId := 1001, deletedFiles := [], attempts := 0,
            inserted := [] }
          { title := some "A", url := some "http://x/a.pdf", posted_date := none,
            modified_date := none, effective_date := none,
            filePath := some "a.pdf" }).deletedFiles = [] := by
  have h := claim_C7_insert_failure_recovery (fun s => s) (fun _ => false)
    "1" "Nigeria" ⟨2024, 1, 1⟩ none
    { store := [], nextDocketId := 1001, deletedFiles := [], attempts := 0,
      inserted := [] }
    { title := some "A", url := some "http://x/a.pdf", posted_date := none,
      modified_date := none, effective_date := none, filePath := some "a.pdf" }
    (by decide) rfl
  exact ⟨h.1, h.2.1⟩

/-- Digit characters are decimal digits. -/
theorem digitChar_isDigit (n : Nat) : (digitChar n).isDigit = true := by
  unfold digitChar
  have h : n % 10 < 10 := Nat.mod_lt _ (by norm_num)
  generalize n % 10 = k at h
  interval_cases k <;> decide

/-- Every rendered date has the canonical `YYYY-MM-DD` shape. -/
theorem isYMDString_formatYMD (d : PyDate) : isYMDString (formatYMD d) = true := by
  simp [isYMDString, formatYMD, digitChar_isDigit]

/-- C8: the Date Normalizer maps a null/absent input to null (never a default
date), maps a string the parser rejects (such as "N/A") to null without
raising, and every non-null output is a calendar-date string in the fixed
`YYYY-MM-DD` form. -/
theorem claim_C8_date_normalizer (parse : String → Option PyDate) :
    normalize_date parse DateInput.pyNone = none
      ∧ (∀ s, parse s = none → normalize_date parse (DateInput.strVal s) = none)
      ∧ (∀ i out, normalize_date parse i = some out → isYMDString out = true) := by
  refine ⟨rfl, fun s h => ?_, fun i out h => ?_⟩
  · simp only [normalize_date]
    split
    · rfl
    · rw [h]
  · cases i with
    | pyNone => cases h
    | dateVal d =>
      injection h with h2
      rw [← h2]
      exact isYMDString_formatYMD d
    | strVal s =>
      simp only [normalize_date] at h
      split at h
      · cases h
      · cases hp : parse s with
        | none =>
          rw [hp] at h
          cases h
        | some d =>
          rw [hp] at h
          injection h with h2
          rw [← h2]
          exact isYMDString_formatYMD d
    | otherVal => cases h

/-- Witness for C8: null input yields null, the unparseable string "N/A"
yields null, and a concrete date renders in the canonical shape. -/
theorem claim_C8_witness :
    normalize_date (fun _ => none) DateInput.pyNone = none
      ∧ normalize_date (fun _ => none) (DateInput.strVal "N/A") = none
      ∧ isYMDString "2024-03-15" = true := by
  refine ⟨(claim_C8_date_normalizer (fun _ => none)).1,
    (claim_C8_date_normalizer (fun _ => none)).2.1 "N/A" rfl,
    (claim_C8_date_normalizer (fun _ => none)).2.2
      (DateInput.dateVal ⟨2024, 3, 15⟩) "2024-03-15" ?_⟩
  decide

/-- C9 counterexample: the claim says every candidate is either rejected or
passed onward with an absolute HTTP(S) URL.  The code only tests
`url.startswith('http')`: the relative href "httpdocs/guide.pdf" passes that
test, is never resolved against the page URL, and is passed onward although it
is not an absolute HTTP(S) URL — and the candidate is not rejected. -/
theorem claim_C9_counterexample :
    process_pdf_url urljoinModel
        { href := some "httpdocs/guide.pdf", text := "Guide" }
        "https://example.com/docs/index.html" = some "httpdocs/guide.pdf"
      ∧ isAbsHttpUrl "httpdocs/guide.pdf" = false := by
  constructor
  · decide
  · decide

/-- C9 amended: a candidate is rejected exactly when its anchor href is missing
or empty; an href that starts with the literal "http" is passed onward
unchanged with no check that it is an absolute HTTP(S) URL, and any other href
is replaced by `urljoin(page_url, href)` and passed onward, again unchecked. -/
theorem claim_C9_url_resolution_amended (urljoin : String → String → String)
    (link : Link) (pageUrl : String) :
    ((process_pdf_url urljoin link pageUrl).isSome ↔ pyFalsy link.href = false)
      ∧ (∀ u, link.href = some u → u.isEmpty = false →
          startswith u "http" = true →
          process_pdf_url urljoin link pageUrl = some u)
      ∧ (∀ u, link.href = some u → u.isEmpty = false →
          startswith u "http" = false →
          process_pdf_url urljoin link pageUrl = some (urljoin pageUrl u)) := by
  refine ⟨?_, fun u hu he hs => ?_, fun u hu he hs => ?_⟩
  · cases hh : link.href with
    | none => simp [process_pdf_url, pyFalsy, hh]
    | some u =>
      cases he : u.isEmpty with
      | false =>
        cases hs : startswith u "http" with
        | false => simp [process_pdf_url, pyFalsy, hh, he, hs]
        | true => simp [process_pdf_url, pyFalsy, hh, he, hs]
      | true => simp [process_pdf_url, pyFalsy, hh, he]
  · simp [process_pdf_url, hu, he, hs]
  · simp [process_pdf_url, hu, he, hs]

/-- Witness for C9 amended: a relative href not starting with "http" is
resolved with the join function against the page URL. -/
theorem claim_C9_witness :
    process_pdf_url urljoinModel { href := some "docs/a.pdf", text := "A" }
        "https://example.com/x/index.html"
      = some (urljoinModel "https://example.com/x/index.html" "docs/a.pdf") :=
  (claim_C9_url_resolution_amended urljoinModel
    { href := some "docs/a.pdf", text := "A" }
    "https://example.com/x/index.html").2.2 "docs/a.pdf" rfl (by decide) (by decide)

/-- C10: a duplicate check with a null or empty title or url returns true, so
such a candidate is treated as already seen — the step neither inserts a row
nor advances the docket counter, and it never acquires an identifier; and when
the store query itself fails the duplicate check returns false, treating the
candidate as new. -/
theorem claim_C10_invalid_and_query_failure (md5hex : String → String)
    (store : List Row) (title url : Option String) :
    (∀ qok, pyFalsy title = true ∨ pyFalsy url = true →
        check_duplicate md5hex store qok title url = true)
      ∧ (pyFalsy title = false → pyFalsy url = false →
          check_duplicate md5hex store false title url = false)
      ∧ (∀ (insertOk : Nat → Bool) (pid country : String) (now : PyDate)
          (latest : Option PyDate) (s : RunState) (c : Candidate),
          c.title = title → c.url = url →
          pyFalsy title = true ∨ pyFalsy url = true →
          (step md5hex insertOk pid country now latest s c).store = s.store
            ∧ (step md5hex insertOk pid country now latest s c).nextDocketId
                = s.nextDocketId
            ∧ (step md5hex insertOk pid country now latest s c).inserted
                = s.inserted) := by
  refine ⟨fun qok h => ?_, fun h1 h2 => ?_,
    fun insertOk pid country now latest s c ht hu hfal => ?_⟩
  · rcases h with h | h <;> simp [check_duplicate, h]
  · simp [check_duplicate, h1, h2]
  · have hcd : check_duplicate md5hex s.store true c.title c.url = true := by
      rw [ht, hu]
      rcases hfal with h | h <;> simp [check_duplicate, h]
    have hd : decide_candidate md5hex s.store latest c = .alreadySeen := by
      simp [decide_candidate, hcd]
    rw [step_seen hd]
    exact ⟨rfl, rfl, rfl⟩

/-- Witness for C10: an empty title is treated as a duplicate, and a failing
query with valid inputs reports no duplicate. -/
theorem claim_C10_witness :
    check_duplicate (fun s => s) [] true (some "") (some "http://x/a.pdf") = true
      ∧ check_duplicate (fun s => s) [] false (some "T") (some "http://x/a.pdf")
          = false := by
  constructor
  · exact (claim_C10_invalid_and_query_failure (fun s => s) [] (some "")
      (some "http://x/a.pdf")).1 true (Or.inl (by decide))
  · exact (claim_C10_invalid_and_query_failure (fun s => s) [] (some "T")
      (some "http://x/a.pdf")).2.1 (by decide) (by decide)

/-- C1: the identifiers a run persists for a (program, country) scope form a
consecutive block starting at `seedLastDocket + 1` (the stored maximum plus
one, defaulting to `starting_docket_id - 1` plus one when the scope is empty),
the in-memory counter ends at the seed plus the number of successful inserts,
the persisted identifiers are strictly increasing with no duplicates, and each
exceeds every docket id already stored for the scope — so identifiers are never
reused across runs. -/
theorem claim_C1_allocator_monotonic (md5hex : String → String)
    (insertOk : Nat → Bool) (pid country : String) (startingDocketId : Int)
    (now : PyDate) (store0 : List Row) (cands : List Candidate)
    (hstart : 1 ≤ startingDocketId) :
    ∃ k : Nat,
      (runSource md5hex insertOk pid country startingDocketId now store0
          cands).inserted
          = consecFrom (seedLastDocket store0 pid country startingDocketId + 1) k
        ∧ (runSource md5hex insertOk pid country startingDocketId now store0
            cands).nextDocketId
            = seedLastDocket store0 pid country startingDocketId + 1 + k
        ∧ (store0.filter (inScope pid country) = [] →
            seedLastDocket store0 pid country startingDocketId
              = startingDocketId - 1)
        ∧ List.Pairwise (· < ·)
            (runSource md5hex insertOk pid country startingDocketId now store0
              cands).inserted
        ∧ ∀ i ∈ (runSource md5hex insertOk pid country startingDocketId now
            store0 cands).inserted,
            ∀ r ∈ store0, inScope pid country r = true → r.docket_id < i := by
  unfold runSource
  obtain ⟨k, h1, h2⟩ := foldl_step_alloc md5hex insertOk pid country now
    (get_latest_date store0 pid country) cands
    { store := store0
      nextDocketId := seedLastDocket store0 pid country startingDocketId + 1
      deletedFiles := []
      attempts := 0
      inserted := [] }
  simp only [List.nil_append] at h1
  refine ⟨k, h1, h2, fun h => ?_, ?_, ?_⟩
  · simp [seedLastDocket, get_last_docket_id, h, maxDocket]
  · rw [h1]
    exact consecFrom_pairwise _ k
  · intro i hi r hr hsc
    rw [h1] at hi
    have hmem := consecFrom_mem hi
    have hrmap : r.docket_id
        ∈ (store0.filter (inScope pid country)).map Row.docket_id :=
      List.mem_map_of_mem Row.docket_id (List.mem_filter.mpr ⟨hr, hsc⟩)
    cases hql : get_last_docket_id store0 pid country with
    | none =>
      exfalso
      unfold get_last_docket_id at hql
      cases hmap : (store0.filter (inScope pid country)).map Row.docket_id with
      | nil =>
        rw [hmap] at hrmap
        cases hrmap
      | cons x xs =>
        rw [hmap] at hql
        cases hql
    | some m =>
      have hle : r.docket_id ≤ m := by
        unfold get_last_docket_id at hql
        exact maxDocket_mem_le hql hrmap
      have hseed : seedLastDocket store0 pid country startingDocketId
          = if m = 0 then startingDocketId - 1 else m := by
        simp [seedLastDocket, hql]
      rw [hseed] at hmem
      by_cases hm0 : m = 0
      · rw [if_pos hm0] at hmem
        omega
      · rw [if_neg hm0] at hmem
        omega

/-- Witness for C1, the spec scenario: an empty scope with starting id 1001;
one valid candidate is persisted with docket id 1001 and the counter moves to
1002. -/
theorem claim_C1_witness :
    ∃ k : Nat,
      (runSource (fun s => s) (fun _ => true) "1" "Nigeria" 1001 ⟨2024, 1, 1⟩ []
          [{ title := some "Guideline A", url := some "https://x/a.pdf",
             posted_date := none, modified_date := none, effective_date := none,
             filePath := none }]).inserted
          = consecFrom (seedLastDocket [] "1" "Nigeria" 1001 + 1) k
        ∧ (runSource (fun s => s) (fun _ => true) "1" "Nigeria" 1001 ⟨2024, 1, 1⟩ []
            [{ title := some "Guideline A", url := some "https://x/a.pdf",
               posted_date := none, modified_date := none, effective_date := none,
               filePath := none }]).nextDocketId
            = seedLastDocket [] "1" "Nigeria" 1001 + 1 + k
        ∧ (List.filter (inScope "1" "Nigeria") [] = [] →
            seedLastDocket [] "1" "Nigeria" 1001 = 1001 - 1)
        ∧ List.Pairwise (· < ·)
            (runSource (fun s => s) (fun _ => true) "1" "Nigeria" 1001 ⟨2024, 1, 1⟩ []
              [{ title := some "Guideline A", url := some "https://x/a.pdf",
                 posted_date := none, modified_date := none, effective_date := none,
                 filePath := none }]).inserted
        ∧ ∀ i ∈ (runSource (fun s => s) (fun _ => true) "1" "Nigeria" 1001
            ⟨2024, 1, 1⟩ []
            [{ title := some "Guideline A", url := some "https://x/a.pdf",
               posted_date := none, modified_date := none, effective_date := none,
               filePath := none }]).inserted,
            ∀ r ∈ ([] : List Row), inScope "1" "Nigeria" r = true →
              r.docket_id < i :=
  claim_C1_allocator_monotonic (fun s => s) (fun _ => true) "1" "Nigeria" 1001
    ⟨2024, 1, 1⟩ []
    [{ title := some "Guideline A", url := some "https://x/a.pdf",
       posted_date := none, modified_date := none, effective_date := none,
       filePath := none }] (by decide)

/-- C6: rerunning the pipeline over the same candidate list against the store
state left by a first run (whose inserts all succeed) persists nothing: the
second run's persisted list is empty and its store is unchanged, and every
candidate whose fingerprint was stored by the first run is classified
ALREADY_SEEN by the duplicate check in the second run.  The run timestamp of
the first run is assumed to lie after the 1900-01-01 sentinel, as a real
`datetime.now()` does. -/
theorem claim_C6_idempotent_rerun (md5hex : String → String)
    (pid country : String) (startingDocketId : Int) (now1 now2 : PyDate)
    (store0 : List Row) (cands : List Candidate)
    (hnow : ¬ PyDate.le now1 date1900) :
    (runSource md5hex (fun _ => true) pid country startingDocketId now2
        (runSource md5hex (fun _ => true) pid country startingDocketId now1
          store0 cands).store cands).inserted = []
      ∧ (runSource md5hex (fun _ => true) pid country startingDocketId now2
          (runSource md5hex (fun _ => true) pid country startingDocketId now1
            store0 cands).store cands).store
          = (runSource md5hex (fun _ => true) pid country startingDocketId now1
              store0 cands).store
      ∧ ∀ c ∈ cands,
          (∃ r ∈ (runSource md5hex (fun _ => true) pid country startingDocketId
              now1 store0 cands).store,
            r.doc_hash = doc_hash md5hex (c.title.getD "") (c.url.getD "")) →
          decide_candidate md5hex
            (runSource md5hex (fun _ => true) pid country startingDocketId now1
              store0 cands).store
            (get_latest_date
              (runSource md5hex (fun _ => true) pid country startingDocketId
                now1 store0 cands).store pid country) c
            = .alreadySeen := by
  unfold runSource
  obtain ⟨ext, hS1, hext⟩ := foldl_step_store md5hex (fun _ => true) pid country
    now1 (get_latest_date store0 pid country) cands
    { store := store0
      nextDocketId := seedLastDocket store0 pid country startingDocketId + 1
      deletedFiles := []
      attempts := 0
      inserted := [] }
  have hkey : ∀ c ∈ cands,
      decide_candidate md5hex
        (List.foldl
          (step md5hex (fun _ => true) pid country now1
            (get_latest_date store0 pid country))
          { store := store0
            nextDocketId := seedLastDocket store0 pid country startingDocketId + 1
            deletedFiles := []
            attempts := 0
            inserted := [] } cands).store
        (get_latest_date
          (List.foldl
            (step md5hex (fun _ => true) pid country now1
              (get_latest_date store0 pid country))
            { store := store0
              nextDocketId := seedLastDocket store0 pid country startingDocketId + 1
              deletedFiles := []
              attempts := 0
              inserted := [] } cands).store pid country) c ≠ .new := by
    intro c hc hnewc
    have hnew2 := decide_eq_new hnewc
    rcases foldl_step_classify md5hex pid country now1
        (get_latest_date store0 pid country) cands
        { store := store0
          nextDocketId := seedLastDocket store0 pid country startingDocketId + 1
          deletedFiles := []
          attempts := 0
          inserted := [] } c hc with hdup | hstale
    · rw [hnew2.1] at hdup
      cases hdup
    · obtain ⟨l, d, hl1, hdtc, hdl⟩ := isStale_eq_true hstale
      obtain ⟨l2, hl2, hll2⟩ := get_latest_date_grow hext hnow hl1
      have hfalse := hnew2.2
      rw [hS1, hl2, hdtc] at hfalse
      simp only [isStale, decide_eq_false_iff_not] at hfalse
      exact hfalse (PyDate.le_trans hdl hll2)
  have hrun2 := foldl_step_no_new md5hex (fun _ => true) pid country now2
    (get_latest_date
      (List.foldl
        (step md5hex (fun _ => true) pid country now1
          (get_latest_date store0 pid country))
        { store := store0
          nextDocketId := seedLastDocket store0 pid country startingDocketId + 1
          deletedFiles := []
          attempts := 0
          inserted := [] } cands).store pid country) cands
    { store :=
        (List.foldl
          (step md5hex (fun _ => true) pid country now1
            (get_latest_date store0 pid country))
          { store := store0
            nextDocketId := seedLastDocket store0 pid country startingDocketId + 1
            deletedFiles := []
            attempts := 0
            inserted := [] } cands).store
      nextDocketId :=
        seedLastDocket
          (List.foldl
            (step md5hex (fun _ => true) pid country now1
              (get_latest_date store0 pid country))
            { store := store0
              nextDocketId := seedLastDocket store0 pid country startingDocketId + 1
              deletedFiles := []
              attempts := 0
              inserted := [] } cands).store pid country startingDocketId + 1
      deletedFiles := []
      attempts := 0
      inserted := [] } (fun c hc => hkey c hc)
  refine ⟨hrun2.2.2, hrun2.1, ?_⟩
  intro c hc hr
  obtain ⟨r, hrmem, hh⟩ := hr
  have hcd := check_duplicate_of_mem md5hex _ c.title c.url r hrmem hh
  simp [decide_candidate, hcd]

/-- Witness for C6: one candidate, empty initial store; the second run inserts
nothing, leaves the store of the first run unchanged, and classifies the
persisted candidate ALREADY_SEEN. -/
theorem claim_C6_witness :
    (runSource (fun s => s) (fun _ => true) "1" "Nigeria" 1001 ⟨2024, 6, 3⟩
        (runSource (fun s => s) (fun _ => true) "1" "Nigeria" 1001 ⟨2024, 6, 2⟩ []
          [{ title := some "Guideline A", url := some "https://x/a.pdf",
             posted_date := none, modified_date := none, effective_date := none,
             filePath := none }]).store
        [{ title := some "Guideline A", url := some "https://x/a.pdf",
           posted_date := none, modified_date := none, effective_date := none,
           filePath := none }]).inserted = []
      ∧ (runSource (fun s => s) (fun _ => true) "1" "Nigeria" 1001 ⟨2024, 6, 3⟩
          (runSource (fun s => s) (fun _ => true) "1" "Nigeria" 1001 ⟨2024, 6, 2⟩ []
            [{ title := some "Guideline A", url := some "https://x/a.pdf",
               posted_date := none, modified_date := none, effective_date := none,
               filePath := none }]).store
          [{ title := some "Guideline A", url := some "https://x/a.pdf",
             posted_date := none, modified_date := none, effective_date := none,
             filePath := none }]).store
          = (runSource (fun s => s) (fun _ => true) "1" "Nigeria" 1001 ⟨2024, 6, 2⟩ []
              [{ title := some "Guideline A", url := some "https://x/a.pdf",
                 posted_date := none, modified_date := none, effective_date := none,
                 filePath := none }]).store
      ∧ ∀ c ∈ [({ title := some "Guideline A", url := some "https://x/a.pdf",
                  posted_date := none, modified_date := none,
                  effective_date := none, filePath := none } : Candidate)],
          (∃ r ∈ (runSource (fun s => s) (fun _ => true) "1" "Nigeria" 1001
              ⟨2024, 6, 2⟩ []
              [{ title := some "Guideline A", url := some "https://x/a.pdf",
                 posted_date := none, modified_date := none, effective_date := none,
                 filePath := none }]).store,
            r.doc_hash = doc_hash (fun s => s) (c.title.getD "") (c.url.getD "")) →
          decide_candidate (fun s => s)
            (runSource (fun s => s) (fun _ => true) "1" "Nigeria" 1001 ⟨2024, 6, 2⟩ []
              [{ title := some "Guideline A", url := some "https://x/a.pdf",
                 posted_date := none, modified_date := none, effective_date := none,
                 filePath := none }]).store
            (get_latest_date
              (runSource (fun s => s) (fun _ => true) "1" "Nigeria" 1001 ⟨2024, 6, 2⟩ []
                [{ title := some "Guideline A", url := some "https://x/a.pdf",
                   posted_date := none, modified_date := none, effective_date := none,
                   filePath := none }]).store "1" "Nigeria") c
            = .alreadySeen :=
  claim_C6_idempotent_rerun (fun s => s) "1" "Nigeria" 1001 ⟨2024, 6, 2⟩
    ⟨2024, 6, 3⟩ []
    [{ title := some "Guideline A", url := some "https://x/a.pdf",
       posted_date := none, modified_date := none, effective_date := none,
       filePath := none }] (by decide)

end Apptask
